import Mathlib

/-!
The libzip deflate adapter (`lib/zip_algorithm_deflate.c`).

A shallow embedding of the deflate plug-in of libzip: the adapter context
(`struct ctx`), its operations (`allocate`, `compression_flags`, `start`,
`end`, `input`, `end_of_input`, `process`) and the status mapping of `process`.

The streaming engine (zlib) is external to the adapter.  It is a parameter
of every operation that calls it: a record of functions over the `z_stream`
record, each returning the updated stream and the integer return code.
Pointers are addresses (`Nat`, `0` is `NULL`), `uInt` and `zip_uint64_t`
values are `Nat` with explicit reductions modulo `2^32` and `2^64` where the
C code narrows or subtracts, `int` values are `Int`.
-/

namespace Deflate

/-! ## Constants of the headers the file includes -/

/-- Modelled from the spec: `UINT_MAX` of `limits.h`, the engine's maximum
single-call transfer size, "bounded by the platform's unsigned 32-bit range". -/
def UINT_MAX : Nat := 4294967295

/-- Number of values of a `uInt` (32-bit `unsigned int`). -/
def UINT_MOD : Nat := 4294967296

/-- Number of values of a `zip_uint64_t`. -/
def U64_MOD : Nat := 18446744073709551616

/-- Modelled from the spec: the engine's "ok" return code (`Z_OK` of `zlib.h`). -/
def Z_OK : Int := 0

/-- Modelled from the spec: the engine's "stream ended" return code
(`Z_STREAM_END` of `zlib.h`). -/
def Z_STREAM_END : Int := 1

/-- Modelled from the spec: the engine's "buffer starved" return code
(`Z_BUF_ERROR` of `zlib.h`). -/
def Z_BUF_ERROR : Int := -5

/-- Modelled from the spec: an engine initialisation failure code
(`Z_MEM_ERROR` of `zlib.h`); used in examples only. -/
def Z_MEM_ERROR : Int := -4

/-- Modelled from the spec: flush value of the sync-point flush step
(`Z_SYNC_FLUSH` of `zlib.h`). -/
def Z_SYNC_FLUSH : Int := 2

/-- Modelled from the spec: flush value of the finishing step (`Z_FINISH` of
`zlib.h`). -/
def Z_FINISH : Int := 4

/-- Modelled from the spec: "maximum compression effort" (`Z_BEST_COMPRESSION`
of `zlib.h`). -/
def Z_BEST_COMPRESSION : Int := 9

/-- Modelled from the spec: the deflate method identifier (`Z_DEFLATED` of
`zlib.h`). -/
def Z_DEFLATED : Int := 8

/-- Modelled from the spec: the window convention of the raw stream
(`MAX_WBITS` of `zconf.h`); it is passed negated, for a headerless stream. -/
def MAX_WBITS : Int := 15

/-- Modelled from the spec: `MAX_MEM_LEVEL` of `zconf.h`. -/
def MAX_MEM_LEVEL : Int := 9

/-- Modelled from the spec: "default strategy" (`Z_DEFAULT_STRATEGY` of
`zlib.h`). -/
def Z_DEFAULT_STRATEGY : Int := 0

/-- Modelled from the spec: the "backend codec error" category (`ZIP_ER_ZLIB`
of `zip.h`, which is not among the sources). -/
def ZIP_ER_ZLIB : Int := 13

/-- Modelled from the spec: the "invalid argument" category (`ZIP_ER_INVAL` of
`zip.h`, which is not among the sources). -/
def ZIP_ER_INVAL : Int := 18

/-- Modelled from the spec: the macro `ZIP_MIN` of `zipint.h` (not among the
sources), the smaller of its two arguments: `((a) < (b) ? (a) : (b))`. -/
def ZIP_MIN (a b : Nat) : Nat := if a < b then a else b

/-! ## Data model -/

/-- The diagnostic record `zip_error_t`: a `(category, nativeCode)` pair. -/
structure zip_error_t where
  zip_err : Int
  sys_err : Int
deriving DecidableEq, Repr

/-- Modelled from the spec: `zip_error_set` (defined in `zip_error.c`, not
among the sources) "writes a `(category, nativeCode)` pair" to the diagnostic
channel.  The record the context points to is kept inside the context; the
pointer is taken to be non-null. -/
def zip_error_set (_err : zip_error_t) (ze se : Int) : zip_error_t :=
  { zip_err := ze, sys_err := se }

/-- The status vocabulary `zip_compression_status_t`. -/
inductive zip_compression_status_t where
  | ZIP_COMPRESSION_OK
  | ZIP_COMPRESSION_END
  | ZIP_COMPRESSION_NEED_DATA
  | ZIP_COMPRESSION_ERROR
deriving DecidableEq, Repr

open zip_compression_status_t

/-- The fields of zlib's `z_stream` that the adapter reads or writes, and the
engine's private session state `state` (everything else in the record). -/
structure z_stream (σ : Type) where
  next_in : Nat
  avail_in : Nat
  next_out : Nat
  avail_out : Nat
  zalloc : Nat
  zfree : Nat
  opaque_ptr : Nat
  state : σ
deriving DecidableEq, Repr

/-- The adapter context `struct ctx`.  `error` is the record behind the
`zip_error_t *` pointer. -/
structure ctx (σ : Type) where
  error : zip_error_t
  compress : Bool
  compression_flags : Int
  end_of_input : Bool
  zstr : z_stream σ
deriving DecidableEq, Repr

/-- The streaming engine as the adapter sees it: each entry point receives the
stream record and returns the updated record with the return code. -/
structure Engine (σ : Type) where
  deflateInit2 : z_stream σ → Int → Int → Int → Int → Int → z_stream σ × Int
  inflateInit2 : z_stream σ → Int → z_stream σ × Int
  deflate : z_stream σ → Int → z_stream σ × Int
  inflate : z_stream σ → Int → z_stream σ × Int
  deflateEnd : z_stream σ → z_stream σ × Int
  inflateEnd : z_stream σ → z_stream σ × Int

/-! ## Operations -/

/-- The function `allocate`.  `mem` is what `malloc` returned: `none` for
`NULL`, otherwise the block with its indeterminate contents. -/
def allocate {σ : Type} (mem : Option (ctx σ)) (compress : Bool)
    (compression_flags : Int) (error : zip_error_t) : Option (ctx σ) :=
  match mem with
  | none => none
  | some c =>
    some { error := error
           compress := compress
           compression_flags := compression_flags
           end_of_input := false
           zstr := { c.zstr with zalloc := 0, zfree := 0, opaque_ptr := 0 } }

/-- The function `compress_allocate`. -/
def compress_allocate {σ : Type} (mem : Option (ctx σ)) (_method : Nat)
    (compression_flags : Int) (error : zip_error_t) : Option (ctx σ) :=
  allocate mem true compression_flags error

/-- The function `decompress_allocate`. -/
def decompress_allocate {σ : Type} (mem : Option (ctx σ)) (_method : Nat)
    (compression_flags : Int) (error : zip_error_t) : Option (ctx σ) :=
  allocate mem false compression_flags error

/-- The function `compression_flags`. -/
def compression_flags {σ : Type} (c : ctx σ) : Int :=
  if c.compress then 1 else 0

/-- The stream `start` hands to the engine initialisation (lines 108-111). -/
def startStream {σ : Type} (c : ctx σ) : z_stream σ :=
  { c.zstr with avail_in := 0, next_in := 0, avail_out := 0, next_out := 0 }

/-- The engine initialisation `start` performs (lines 113-121). -/
def startInit {σ : Type} (eng : Engine σ) (c : ctx σ) : z_stream σ × Int :=
  if c.compress then
    eng.deflateInit2 (startStream c) Z_BEST_COMPRESSION Z_DEFLATED (-MAX_WBITS)
      MAX_MEM_LEVEL Z_DEFAULT_STRATEGY
  else
    eng.inflateInit2 (startStream c) (-MAX_WBITS)

/-- The function `start`: the updated context and the returned `bool`. -/
def start {σ : Type} (eng : Engine σ) (c : ctx σ) : ctx σ × Bool :=
  let r := startInit eng c
  if r.2 ≠ Z_OK then
    ({ c with zstr := r.1, error := zip_error_set c.error ZIP_ER_ZLIB r.2 }, false)
  else
    ({ c with zstr := r.1 }, true)

/-- The function `end` (a keyword of Lean, hence the underscore). -/
def end_ {σ : Type} (eng : Engine σ) (c : ctx σ) : ctx σ × Bool :=
  if c.compress then
    ({ c with zstr := (eng.deflateEnd c.zstr).1 }, true)
  else
    ({ c with zstr := (eng.inflateEnd c.zstr).1 }, true)

/-- The function `input`: the updated context and the returned `bool`. -/
def input {σ : Type} (c : ctx σ) (data : Nat) (length : Nat) : ctx σ × Bool :=
  if length > UINT_MAX ∨ c.zstr.avail_in > 0 then
    ({ c with error := zip_error_set c.error ZIP_ER_INVAL 0 }, false)
  else
    ({ c with zstr := { c.zstr with avail_in := length % UINT_MOD, next_in := data } }, true)

/-- The function `end_of_input`. -/
def end_of_input {σ : Type} (c : ctx σ) : ctx σ :=
  { c with end_of_input := true }

/-- The stream `process` hands to the engine step (lines 177-178). -/
def processStream {σ : Type} (c : ctx σ) (data : Nat) (length : Nat) : z_stream σ :=
  { c.zstr with avail_out := ZIP_MIN UINT_MAX length % UINT_MOD, next_out := data }

/-- The engine step of `process` (lines 180-185): the stream the engine
leaves and its return code. -/
def engineStep {σ : Type} (eng : Engine σ) (c : ctx σ) (data : Nat) (length : Nat) :
    z_stream σ × Int :=
  if c.compress then
    eng.deflate (processStream c data length) (if c.end_of_input then Z_FINISH else 0)
  else
    eng.inflate (processStream c data length) Z_SYNC_FLUSH

/-- Subtraction of a `uInt` from a `zip_uint64_t`, in `zip_uint64_t`. -/
def sub64 (a b : Nat) : Nat := (a % U64_MOD + (U64_MOD - b % U64_MOD)) % U64_MOD

/-- What `process` gives back: the context, the returned status and the value
left in `*length`. -/
structure process_result (σ : Type) where
  context : ctx σ
  status : zip_compression_status_t
  length : Nat
deriving DecidableEq, Repr

/-- The function `process`.  `length` is the value of `*length` on entry. -/
def process {σ : Type} (eng : Engine σ) (c : ctx σ) (data : Nat) (length : Nat) :
    process_result σ :=
  let r := engineStep eng c data length
  let length1 := sub64 length r.1.avail_out
  if r.2 = Z_OK then
    { context := { c with zstr := r.1 }, status := ZIP_COMPRESSION_OK, length := length1 }
  else if r.2 = Z_STREAM_END then
    { context := { c with zstr := r.1 }, status := ZIP_COMPRESSION_END, length := length1 }
  else if r.2 = Z_BUF_ERROR ∧ r.1.avail_in = 0 then
    { context := { c with zstr := r.1 }, status := ZIP_COMPRESSION_NEED_DATA, length := length1 }
  else
    { context := { c with zstr := r.1, error := zip_error_set c.error ZIP_ER_ZLIB r.2 }
      status := ZIP_COMPRESSION_ERROR, length := length1 }

/-! ## Sequences of operations -/

/-- One call on an allocated context, with its arguments. -/
inductive Op where
  | start
  | input (data : Nat) (length : Nat)
  | end_of_input
  | process (data : Nat) (length : Nat)
  | end_
deriving DecidableEq, Repr

/-- The context after one call, whatever the call returned. -/
def applyOp {σ : Type} (eng : Engine σ) (c : ctx σ) : Op → ctx σ
  | Op.start => (start eng c).1
  | Op.input data length => (input c data length).1
  | Op.end_of_input => end_of_input c
  | Op.process data length => (process eng c data length).context
  | Op.end_ => (end_ eng c).1

/-- The context after a sequence of calls, first call first. -/
def run {σ : Type} (eng : Engine σ) (c : ctx σ) (ops : List Op) : ctx σ :=
  ops.foldl (applyOp eng) c

/-! ## A small engine with internal buffering

The adapter is checked against every engine.  For concrete runs, this engine
follows the return-code contract `zlib.h` documents for `deflate` and
`inflate`: `Z_OK` when progress was made (input consumed or output produced),
`Z_STREAM_END` when a finishing step has consumed all input and produced all
output, `Z_BUF_ERROR` when no progress is possible.  It counts bytes only:
input it accepts is held in `pending` until there is room to write it out. -/

/-- Session state of the small engine: bytes accepted and not yet written. -/
structure Buffered where
  pending : Nat
deriving DecidableEq, Repr

/-- One step of the small engine: accept all the input, write what fits. -/
def bufferedStep (z : z_stream Buffered) : z_stream Buffered :=
  { z with
    next_in := z.next_in + z.avail_in
    avail_in := 0
    next_out := z.next_out + min (z.state.pending + z.avail_in) z.avail_out
    avail_out := z.avail_out - min (z.state.pending + z.avail_in) z.avail_out
    state := { pending := z.state.pending + z.avail_in
                 - min (z.state.pending + z.avail_in) z.avail_out } }

/-- The small engine. -/
def bufferedEngine : Engine Buffered where
  deflateInit2 := fun z _ _ _ _ _ => ({ z with state := { pending := 0 } }, Z_OK)
  inflateInit2 := fun z _ => ({ z with state := { pending := 0 } }, Z_OK)
  deflate := fun z flush =>
    if z.avail_out = 0 then (z, Z_BUF_ERROR)
    else if z.avail_in = 0 ∧ z.state.pending = 0 ∧ flush ≠ Z_FINISH then (z, Z_BUF_ERROR)
    else if flush = Z_FINISH ∧ (bufferedStep z).state.pending = 0 then
      (bufferedStep z, Z_STREAM_END)
    else (bufferedStep z, Z_OK)
  inflate := fun z _ =>
    if z.avail_in = 0 ∧ min z.state.pending z.avail_out = 0 then (z, Z_BUF_ERROR)
    else (bufferedStep z, Z_OK)
  deflateEnd := fun z => (z, Z_OK)
  inflateEnd := fun z => (z, Z_OK)

/-- An engine that answers every call with the code `r` and leaves the stream
as it found it. -/
def constEngine (r : Int) : Engine Unit where
  deflateInit2 := fun z _ _ _ _ _ => (z, r)
  inflateInit2 := fun z _ => (z, r)
  deflate := fun z _ => (z, r)
  inflate := fun z _ => (z, r)
  deflateEnd := fun z => (z, r)
  inflateEnd := fun z => (z, r)

/-- A context with no engine state, for `constEngine`. -/
def plainContext (compress : Bool) : ctx Unit :=
  { error := { zip_err := 0, sys_err := 0 }
    compress := compress
    compression_flags := 0
    end_of_input := false
    zstr := { next_in := 0, avail_in := 0, next_out := 0, avail_out := 0
              zalloc := 0, zfree := 0, opaque_ptr := 0, state := () } }

/-- A block as `malloc` returns it; the contents are arbitrary. -/
def rawBlock : ctx Buffered :=
  { error := { zip_err := 0, sys_err := 0 }
    compress := false
    compression_flags := 77
    end_of_input := true
    zstr := { next_in := 11, avail_in := 12, next_out := 13, avail_out := 14
              zalloc := 15, zfree := 16, opaque_ptr := 17, state := { pending := 18 } } }

/-- The diagnostic record before anything was recorded. -/
def noError : zip_error_t := { zip_err := 0, sys_err := 0 }

/-- A compress context as `allocate` leaves it. -/
def freshCompress : ctx Buffered :=
  (allocate (some rawBlock) true 0 noError).getD rawBlock

/-- A decompress context as `allocate` leaves it. -/
def freshDecompress : ctx Buffered :=
  (allocate (some rawBlock) false 0 noError).getD rawBlock

end Deflate

namespace Deflate
open zip_compression_status_t

/-! ## Shared lemmas -/

theorem ZIP_MIN_eq_min (length : Nat) : ZIP_MIN UINT_MAX length = min length UINT_MAX := by
  unfold ZIP_MIN
  by_cases h : UINT_MAX < length
  · rw [if_pos h, Nat.min_eq_right (Nat.le_of_lt h)]
  · rw [if_neg h, Nat.min_eq_left (Nat.le_of_not_lt h)]

theorem processStream_avail_out {σ : Type} (c : ctx σ) (data length : Nat) :
    (processStream c data length : z_stream σ).avail_out = min length UINT_MAX := by
  have h : min length UINT_MAX < UINT_MOD := by
    simp only [UINT_MAX, UINT_MOD]
    omega
  simp only [processStream, ZIP_MIN_eq_min]
  exact Nat.mod_eq_of_lt h

theorem process_zstr {σ : Type} (eng : Engine σ) (c : ctx σ) (data length : Nat) :
    (process eng c data length).context.zstr = (engineStep eng c data length).1 := by
  simp only [process]
  split_ifs <;> rfl

theorem process_length {σ : Type} (eng : Engine σ) (c : ctx σ) (data length : Nat) :
    (process eng c data length).length
      = sub64 length (engineStep eng c data length).1.avail_out := by
  simp only [process]
  split_ifs <;> rfl

theorem process_status {σ : Type} (eng : Engine σ) (c : ctx σ) (data length : Nat) :
    (process eng c data length).status
      = if (engineStep eng c data length).2 = Z_OK then ZIP_COMPRESSION_OK
        else if (engineStep eng c data length).2 = Z_STREAM_END then ZIP_COMPRESSION_END
        else if (engineStep eng c data length).2 = Z_BUF_ERROR
            ∧ (engineStep eng c data length).1.avail_in = 0 then ZIP_COMPRESSION_NEED_DATA
        else ZIP_COMPRESSION_ERROR := by
  simp only [process]
  split_ifs <;> rfl

theorem process_error {σ : Type} (eng : Engine σ) (c : ctx σ) (data length : Nat) :
    (process eng c data length).context.error
      = if (process eng c data length).status = ZIP_COMPRESSION_ERROR then
          { zip_err := ZIP_ER_ZLIB, sys_err := (engineStep eng c data length).2 }
        else c.error := by
  have he : (process eng c data length).context.error
      = if (engineStep eng c data length).2 = Z_OK then c.error
        else if (engineStep eng c data length).2 = Z_STREAM_END then c.error
        else if (engineStep eng c data length).2 = Z_BUF_ERROR
            ∧ (engineStep eng c data length).1.avail_in = 0 then c.error
        else { zip_err := ZIP_ER_ZLIB, sys_err := (engineStep eng c data length).2 } := by
    simp only [process]
    split_ifs <;> rfl
  rw [he, process_status]
  split_ifs <;> simp_all

theorem sub64_of_le (a b : Nat) (ha : a < U64_MOD) (hb : b ≤ a) : sub64 a b = a - b := by
  unfold sub64
  have hb2 : b < U64_MOD := lt_of_le_of_lt hb ha
  rw [Nat.mod_eq_of_lt ha, Nat.mod_eq_of_lt hb2]
  have : a + (U64_MOD - b) = (a - b) + U64_MOD := by omega
  rw [this, Nat.add_mod_right]
  exact Nat.mod_eq_of_lt (by omega)

/-! ## The status mapping of `process` -/

/-- C1: `process` maps the engine step's return code to a status: `Z_OK`
gives OK, `Z_STREAM_END` gives END, `Z_BUF_ERROR` with no input left after the
step gives NEED_DATA, `Z_BUF_ERROR` with input left and every other code give
ERROR; the diagnostic `(ZIP_ER_ZLIB, r)` is recorded exactly when the status is
ERROR, and is left as it was otherwise. -/
theorem process_maps_return_code {σ : Type} (eng : Engine σ) (c : ctx σ) (data length : Nat) :
    ((engineStep eng c data length).2 = Z_OK →
        (process eng c data length).status = ZIP_COMPRESSION_OK) ∧
    ((engineStep eng c data length).2 = Z_STREAM_END →
        (process eng c data length).status = ZIP_COMPRESSION_END) ∧
    ((engineStep eng c data length).2 = Z_BUF_ERROR →
        (engineStep eng c data length).1.avail_in = 0 →
        (process eng c data length).status = ZIP_COMPRESSION_NEED_DATA) ∧
    ((engineStep eng c data length).2 = Z_BUF_ERROR →
        (engineStep eng c data length).1.avail_in ≠ 0 →
        (process eng c data length).status = ZIP_COMPRESSION_ERROR) ∧
    ((engineStep eng c data length).2 ≠ Z_OK →
        (engineStep eng c data length).2 ≠ Z_STREAM_END →
        (engineStep eng c data length).2 ≠ Z_BUF_ERROR →
        (process eng c data length).status = ZIP_COMPRESSION_ERROR) ∧
    ((process eng c data length).status = ZIP_COMPRESSION_ERROR →
        (process eng c data length).context.error
          = { zip_err := ZIP_ER_ZLIB, sys_err := (engineStep eng c data length).2 }) ∧
    ((process eng c data length).status ≠ ZIP_COMPRESSION_ERROR →
        (process eng c data length).context.error = c.error) := by
  refine ⟨?_, ?_, ?_, ?_, ?_, ?_, ?_⟩
  · intro h
    rw [process_status, if_pos h]
  · intro h
    have h1 : (engineStep eng c data length).2 ≠ Z_OK := by
      rw [h]; decide
    rw [process_status, if_neg h1, if_pos h]
  · intro h h0
    have h1 : (engineStep eng c data length).2 ≠ Z_OK := by
      rw [h]; decide
    have h2 : (engineStep eng c data length).2 ≠ Z_STREAM_END := by
      rw [h]; decide
    rw [process_status, if_neg h1, if_neg h2, if_pos ⟨h, h0⟩]
  · intro h h0
    have h1 : (engineStep eng c data length).2 ≠ Z_OK := by
      rw [h]; decide
    have h2 : (engineStep eng c data length).2 ≠ Z_STREAM_END := by
      rw [h]; decide
    rw [process_status, if_neg h1, if_neg h2, if_neg (fun hh => h0 hh.2)]
  · intro h1 h2 h3
    rw [process_status, if_neg h1, if_neg h2, if_neg (fun hh => h3 hh.1)]
  · intro h
    rw [process_error, if_pos h]
  · intro h
    rw [process_error, if_neg h]

/-- Witness for C1 on the small engine: a freshly started decompress context
is starved, and the status is NEED_DATA with the diagnostic untouched. -/
theorem process_maps_return_code_witness :
    (engineStep bufferedEngine (start bufferedEngine freshDecompress).1 100 16).2 = Z_BUF_ERROR ∧
    (engineStep bufferedEngine (start bufferedEngine freshDecompress).1 100 16).1.avail_in = 0 ∧
    (process bufferedEngine (start bufferedEngine freshDecompress).1 100 16).status
      = ZIP_COMPRESSION_NEED_DATA :=
  ⟨by decide, by decide,
    (process_maps_return_code bufferedEngine (start bufferedEngine freshDecompress).1 100 16).2.2.1
      (by decide) (by decide)⟩

/-! ## `input` -/

theorem input_ok_iff {σ : Type} (c : ctx σ) (data length : Nat) :
    (input c data length).2 = true ↔ length ≤ UINT_MAX ∧ c.zstr.avail_in = 0 := by
  unfold input
  by_cases h : length > UINT_MAX ∨ c.zstr.avail_in > 0
  · rw [if_pos h]
    constructor
    · intro hf
      exact absurd hf (by simp)
    · intro hh
      omega
  · rw [if_neg h]
    constructor
    · intro _
      omega
    · intro _
      rfl

/-- C2: `input` succeeds exactly when `length` is at most `UINT_MAX` and the
previously registered chunk is fully consumed (`avail_in = 0`); on success the
registered view is the caller's buffer with pending length `length`, not
truncated by the narrowing cast, the rest of the context being as before.  The
boundary lengths `UINT_MAX` and `0` are accepted. -/
theorem input_succeeds_iff {σ : Type} (c : ctx σ) (data length : Nat) :
    ((input c data length).2 = true ↔ length ≤ UINT_MAX ∧ c.zstr.avail_in = 0) ∧
    ((input c data length).2 = true →
        (input c data length).1
          = { c with zstr := { c.zstr with avail_in := length, next_in := data } }) ∧
    (c.zstr.avail_in = 0 →
        (input c data UINT_MAX).2 = true ∧ (input c data UINT_MAX).1.zstr.avail_in = UINT_MAX
          ∧ (input c data UINT_MAX).1.zstr.next_in = data) ∧
    (c.zstr.avail_in = 0 →
        (input c data 0).2 = true ∧ (input c data 0).1.zstr.avail_in = 0
          ∧ (input c data 0).1.zstr.next_in = data) := by
  have key : ∀ n : Nat, (input c data n).2 = true →
      (input c data n).1 = { c with zstr := { c.zstr with avail_in := n, next_in := data } } := by
    intro n hok
    have hn := (input_ok_iff c data n).1 hok
    have hlt : n % UINT_MOD = n := by
      apply Nat.mod_eq_of_lt
      have := hn.1
      simp only [UINT_MAX] at this
      simp only [UINT_MOD]
      omega
    have hneg : ¬ (n > UINT_MAX ∨ c.zstr.avail_in > 0) := by omega
    unfold input
    rw [if_neg hneg, hlt]
  refine ⟨input_ok_iff c data length, key length, ?_, ?_⟩
  · intro h0
    have hok : (input c data UINT_MAX).2 = true := (input_ok_iff c data UINT_MAX).2 ⟨le_refl _, h0⟩
    refine ⟨hok, ?_, ?_⟩ <;> rw [key UINT_MAX hok]
  · intro h0
    have hok : (input c data 0).2 = true := (input_ok_iff c data 0).2 ⟨Nat.zero_le _, h0⟩
    refine ⟨hok, ?_, ?_⟩ <;> rw [key 0 hok]

/-- Witness for C2: a started context accepts a chunk of `UINT_MAX` bytes. -/
theorem input_succeeds_iff_witness :
    (input (start bufferedEngine freshCompress).1 500 UINT_MAX).2 = true ∧
    (input (start bufferedEngine freshCompress).1 500 UINT_MAX).1.zstr.avail_in = 4294967295 :=
  ⟨by decide,
    ((input_succeeds_iff (start bufferedEngine freshCompress).1 500 UINT_MAX).2.2.1
      (by decide)).2.1⟩

/-- C3: whenever `input` fails (a prior chunk has unconsumed bytes, or `length`
is oversized) it records `(ZIP_ER_INVAL, 0)` and changes nothing else: the
engine stream with its pending input pointer and length, the end-of-input
flag, the mode and the flags are as before the call. -/
theorem input_failure_records_inval {σ : Type} (c : ctx σ) (data length : Nat)
    (h : length > UINT_MAX ∨ c.zstr.avail_in > 0) :
    (input c data length).2 = false ∧
    (input c data length).1.error = { zip_err := ZIP_ER_INVAL, sys_err := 0 } ∧
    (input c data length).1.zstr = c.zstr ∧
    (input c data length).1.zstr.next_in = c.zstr.next_in ∧
    (input c data length).1.zstr.avail_in = c.zstr.avail_in ∧
    (input c data length).1.end_of_input = c.end_of_input ∧
    (input c data length).1.compress = c.compress ∧
    (input c data length).1.compression_flags = c.compression_flags := by
  unfold input
  rw [if_pos h]
  exact ⟨rfl, rfl, rfl, rfl, rfl, rfl, rfl, rfl⟩

/-- Witness for C3: a second chunk offered while five bytes are pending. -/
theorem input_failure_records_inval_witness :
    (input (run bufferedEngine freshCompress [Op.start, Op.input 500 5]) 600 7).2 = false ∧
    (input (run bufferedEngine freshCompress [Op.start, Op.input 500 5]) 600 7).1.zstr.avail_in = 5 :=
  have h := input_failure_records_inval
    (run bufferedEngine freshCompress [Op.start, Op.input 500 5]) 600 7 (Or.inr (by decide))
  ⟨h.1, h.2.2.2.2.1.trans (by decide)⟩

/-! ## `start` -/

/-- C7: `start` clears the pending input and output views, then initialises
the engine for encoding in compress mode and for decoding in decompress mode,
and keeps the stream the initialisation returns.  It fails exactly when the
initialisation returns a code other than `Z_OK`, and then records
`(ZIP_ER_ZLIB, code)`; on success the diagnostic is untouched.  These hold for
every engine.  For every engine whose two initialisation entry points do not
write `avail_in` (they perform no compression or decompression), no input is
pending after `start`: `avail_in = 0`. -/
theorem start_reports_init {σ : Type} (eng : Engine σ) (c : ctx σ) :
    (c.compress = true → startInit eng c
        = eng.deflateInit2 (startStream c) Z_BEST_COMPRESSION Z_DEFLATED (-MAX_WBITS)
            MAX_MEM_LEVEL Z_DEFAULT_STRATEGY) ∧
    (c.compress = false → startInit eng c = eng.inflateInit2 (startStream c) (-MAX_WBITS)) ∧
    ((startStream c).avail_in = 0 ∧ (startStream c).next_in = 0 ∧
      (startStream c).avail_out = 0 ∧ (startStream c).next_out = 0 ∧
      (startStream c).state = c.zstr.state) ∧
    (start eng c).1.zstr = (startInit eng c).1 ∧
    ((start eng c).2 = false ↔ (startInit eng c).2 ≠ Z_OK) ∧
    ((start eng c).2 = true ↔ (startInit eng c).2 = Z_OK) ∧
    ((start eng c).2 = false →
        (start eng c).1.error = { zip_err := ZIP_ER_ZLIB, sys_err := (startInit eng c).2 }) ∧
    ((start eng c).2 = true → (start eng c).1.error = c.error) ∧
    ((∀ (z : z_stream σ) (level method windowBits memLevel strategy : Int),
          (eng.deflateInit2 z level method windowBits memLevel strategy).1.avail_in
            = z.avail_in) →
      (∀ (z : z_stream σ) (windowBits : Int),
          (eng.inflateInit2 z windowBits).1.avail_in = z.avail_in) →
      (start eng c).1.zstr.avail_in = 0) := by
  have hz : (start eng c).1.zstr = (startInit eng c).1 := by
    simp only [start]
    split_ifs <;> rfl
  refine ⟨?_, ?_, ⟨rfl, rfl, rfl, rfl, rfl⟩, hz, ?_, ?_, ?_, ?_, ?_⟩
  · intro h
    simp [startInit, h]
  · intro h
    simp [startInit, h]
  · simp only [start]
    split_ifs with h <;> simp_all
  · simp only [start]
    split_ifs with h <;> simp_all
  · simp only [start]
    split_ifs with h <;> simp_all [zip_error_set]
  · simp only [start]
    split_ifs with h <;> simp
  · intro hdef hinf
    rw [hz]
    unfold startInit
    split_ifs
    · rw [hdef]
      rfl
    · rw [hinf]
      rfl

/-- Witness for C7: a compress context starts on the small engine, whose
initialisation does not write `avail_in`, with no input pending; and an
initialisation answering `Z_MEM_ERROR` makes `start` fail with the diagnostic
`(ZIP_ER_ZLIB, Z_MEM_ERROR)`. -/
theorem start_reports_init_witness :
    ((start bufferedEngine freshCompress).2 = true ∧
      (start bufferedEngine freshCompress).1.error = noError ∧
      (start bufferedEngine freshCompress).1.zstr.avail_in = 0) ∧
    ((start (constEngine Z_MEM_ERROR) (plainContext false)).2 = false ∧
      (start (constEngine Z_MEM_ERROR) (plainContext false)).1.error
        = { zip_err := 13, sys_err := -4 }) :=
  have h1 := start_reports_init bufferedEngine freshCompress
  have h2 := start_reports_init (constEngine Z_MEM_ERROR) (plainContext false)
  have hok : (start bufferedEngine freshCompress).2 = true := h1.2.2.2.2.2.1.2 (by decide)
  have hfail : (start (constEngine Z_MEM_ERROR) (plainContext false)).2 = false :=
    h2.2.2.2.2.1.2 (by decide)
  ⟨⟨hok, h1.2.2.2.2.2.2.2.1 hok,
      h1.2.2.2.2.2.2.2.2 (fun _ _ _ _ _ _ => rfl) (fun _ _ => rfl)⟩,
    ⟨hfail, (h2.2.2.2.2.2.2.1 hfail).trans (by decide)⟩⟩

/-! ## The engine step of `process` -/

/-- C10: `process` invokes the engine step on the registered input view with
output space `min(capacity, UINT_MAX)` at the caller's buffer; in compress mode
the flush value is `Z_FINISH` exactly when the end-of-input flag is set and `0`
otherwise, in decompress mode it is `Z_SYNC_FLUSH` whatever the flag; the
stream the step leaves is the one `process` keeps. -/
theorem process_engine_call {σ : Type} (eng : Engine σ) (c : ctx σ) (data length : Nat) :
    (processStream c data length).next_in = c.zstr.next_in ∧
    (processStream c data length).avail_in = c.zstr.avail_in ∧
    (processStream c data length).state = c.zstr.state ∧
    (processStream c data length).next_out = data ∧
    (processStream c data length).avail_out = min length UINT_MAX ∧
    (c.compress = true → ∃ flush : Int,
        engineStep eng c data length = eng.deflate (processStream c data length) flush ∧
        (flush = Z_FINISH ↔ c.end_of_input = true) ∧
        (c.end_of_input = false → flush = 0)) ∧
    (c.compress = false →
        engineStep eng c data length = eng.inflate (processStream c data length) Z_SYNC_FLUSH) ∧
    (process eng c data length).context.zstr = (engineStep eng c data length).1 := by
  refine ⟨rfl, rfl, rfl, rfl, processStream_avail_out c data length, ?_, ?_,
    process_zstr eng c data length⟩
  · intro hc
    refine ⟨if c.end_of_input then Z_FINISH else 0, ?_, ?_, ?_⟩
    · simp [engineStep, hc]
    · cases c.end_of_input <;> simp [Z_FINISH]
    · intro he
      simp [he]
  · intro hc
    simp [engineStep, hc]

/-- Witness for C10: after `end_of_input` the compress step is the finishing
step of the small engine, which ends the stream. -/
theorem process_engine_call_witness :
    engineStep bufferedEngine
        (run bufferedEngine freshCompress [Op.start, Op.input 500 5, Op.end_of_input]) 100 16
      = bufferedEngine.deflate
          (processStream
            (run bufferedEngine freshCompress [Op.start, Op.input 500 5, Op.end_of_input]) 100 16)
          Z_FINISH :=
  match (process_engine_call bufferedEngine
      (run bufferedEngine freshCompress [Op.start, Op.input 500 5, Op.end_of_input])
      100 16).2.2.2.2.2.1 (by decide) with
  | ⟨_, hstep, hflush, _⟩ => (hflush.2 (by decide)) ▸ hstep

/-! ## The end-of-input flag, the mode and the flags -/

theorem applyOp_keeps {σ : Type} (eng : Engine σ) (c : ctx σ) (op : Op) :
    (applyOp eng c op).compress = c.compress ∧
    (applyOp eng c op).compression_flags = c.compression_flags ∧
    (c.end_of_input = true → (applyOp eng c op).end_of_input = true) := by
  cases op with
  | start =>
    simp only [applyOp, start]
    split_ifs <;> exact ⟨rfl, rfl, id⟩
  | input data length =>
    simp only [applyOp, input]
    split_ifs <;> exact ⟨rfl, rfl, id⟩
  | end_of_input => exact ⟨rfl, rfl, fun _ => rfl⟩
  | process data length =>
    simp only [applyOp, process]
    split_ifs <;> exact ⟨rfl, rfl, id⟩
  | end_ =>
    simp only [applyOp, end_]
    split_ifs <;> exact ⟨rfl, rfl, id⟩

theorem run_keeps {σ : Type} (eng : Engine σ) (ops : List Op) :
    ∀ c : ctx σ,
      (run eng c ops).compress = c.compress ∧
      (run eng c ops).compression_flags = c.compression_flags ∧
      (c.end_of_input = true → (run eng c ops).end_of_input = true) := by
  induction ops with
  | nil =>
    intro c
    exact ⟨rfl, rfl, id⟩
  | cons op rest ih =>
    intro c
    have h1 := applyOp_keeps eng c op
    have h2 := ih (applyOp eng c op)
    have hrun : run eng c (op :: rest) = run eng (applyOp eng c op) rest := rfl
    rw [hrun]
    exact ⟨h2.1.trans h1.1, h2.2.1.trans h1.2.1, fun h => h2.2.2 (h1.2.2 h)⟩

/-- C9: `allocate` creates the context with the end-of-input flag false and
the mode and flags it was given, `end_of_input` sets the flag, and no sequence
of `start`, `input`, `end_of_input`, `process` and `end` calls, succeeding or
failing, changes the mode or the flags or brings a set flag back to false. -/
theorem end_of_input_monotone {σ : Type} (eng : Engine σ) (c : ctx σ) (ops : List Op)
    (mem : Option (ctx σ)) (compress : Bool) (flags : Int) (error : zip_error_t) :
    (∀ c0 : ctx σ, allocate mem compress flags error = some c0 →
        c0.end_of_input = false ∧ c0.compress = compress ∧ c0.compression_flags = flags) ∧
    (end_of_input c).end_of_input = true ∧
    (run eng c ops).compress = c.compress ∧
    (run eng c ops).compression_flags = c.compression_flags ∧
    (c.end_of_input = true → (run eng c ops).end_of_input = true) ∧
    (run eng (end_of_input c) ops).end_of_input = true := by
  refine ⟨?_, rfl, (run_keeps eng ops c).1, (run_keeps eng ops c).2.1,
    (run_keeps eng ops c).2.2, (run_keeps eng ops (end_of_input c)).2.2 rfl⟩
  intro c0 h
  cases mem with
  | none => simp [allocate] at h
  | some m =>
    simp only [allocate, Option.some.injEq] at h
    subst h
    exact ⟨rfl, rfl, rfl⟩

/-- Witness for C9: a full life cycle on the small engine, with a rejected
`input` and calls after the stream has ended. -/
theorem end_of_input_monotone_witness :
    (run bufferedEngine (end_of_input freshCompress)
      [Op.start, Op.input 500 5, Op.input 600 7, Op.process 100 2, Op.process 100 16,
        Op.start, Op.end_, Op.process 100 0]).end_of_input = true :=
  (end_of_input_monotone bufferedEngine freshCompress
    [Op.start, Op.input 500 5, Op.input 600 7, Op.process 100 2, Op.process 100 16,
      Op.start, Op.end_, Op.process 100 0] none true 0 noError).2.2.2.2.2

/-! ## The byte count of `process` -/

theorem process_length_of_step {σ : Type} (eng : Engine σ) (c : ctx σ) (data length : Nat)
    (hlen : length < U64_MOD)
    (hmono : (engineStep eng c data length).1.avail_out ≤ (processStream c data length).avail_out) :
    (process eng c data length).length
      = (length - min length UINT_MAX)
        + ((processStream c data length).avail_out
            - (engineStep eng c data length).1.avail_out) := by
  rw [processStream_avail_out] at hmono
  rw [process_length, processStream_avail_out]
  have hmin : min length UINT_MAX ≤ length := Nat.min_le_left _ _
  rw [sub64_of_le length _ hlen (le_trans hmono hmin)]
  omega

/-- C4: evaluation at a capacity above `UINT_MAX`.  The small engine is handed
`UINT_MAX` bytes of output space and leaves `UINT_MAX - 5` unfilled: it wrote
5 bytes, and `process` reports 16, the capacity minus the unfilled count. -/
theorem process_overreports_above_uint_max :
    (processStream
        (run bufferedEngine freshCompress [Op.start, Op.input 500 5, Op.end_of_input])
        100 4294967306).avail_out = 4294967295 ∧
    (engineStep bufferedEngine
        (run bufferedEngine freshCompress [Op.start, Op.input 500 5, Op.end_of_input])
        100 4294967306).1.avail_out = 4294967290 ∧
    (engineStep bufferedEngine
        (run bufferedEngine freshCompress [Op.start, Op.input 500 5, Op.end_of_input])
        100 4294967306).1.next_out = 105 ∧
    (process bufferedEngine
        (run bufferedEngine freshCompress [Op.start, Op.input 500 5, Op.end_of_input])
        100 4294967306).length = 16 := by
  decide

/-- C8: with output capacity 0, and an engine step that does not increase the
unfilled-output count, `process` reports 0 bytes written; its status depends on
the engine's return code and remaining input only, not on the capacity, so a
zero-capacity call reports END for `Z_STREAM_END` and ERROR for an error code. -/
theorem process_zero_capacity {σ : Type} (eng : Engine σ) (c : ctx σ) (data : Nat)
    (hmono : (engineStep eng c data 0).1.avail_out ≤ (processStream c data 0).avail_out) :
    (process eng c data 0).length = 0 ∧
    (∀ length : Nat,
        (engineStep eng c data length).2 = (engineStep eng c data 0).2 →
        ((engineStep eng c data length).1.avail_in = 0
          ↔ (engineStep eng c data 0).1.avail_in = 0) →
        (process eng c data length).status = (process eng c data 0).status) ∧
    ((engineStep eng c data 0).2 = Z_OK →
        (process eng c data 0).status = ZIP_COMPRESSION_OK) ∧
    ((engineStep eng c data 0).2 = Z_STREAM_END →
        (process eng c data 0).status = ZIP_COMPRESSION_END) ∧
    ((engineStep eng c data 0).2 = Z_BUF_ERROR → (engineStep eng c data 0).1.avail_in = 0 →
        (process eng c data 0).status = ZIP_COMPRESSION_NEED_DATA) ∧
    ((engineStep eng c data 0).2 = Z_BUF_ERROR → (engineStep eng c data 0).1.avail_in ≠ 0 →
        (process eng c data 0).status = ZIP_COMPRESSION_ERROR) ∧
    ((engineStep eng c data 0).2 ≠ Z_OK → (engineStep eng c data 0).2 ≠ Z_STREAM_END →
        (engineStep eng c data 0).2 ≠ Z_BUF_ERROR →
        (process eng c data 0).status = ZIP_COMPRESSION_ERROR) := by
  refine ⟨?_, ?_, ?_, ?_, ?_, ?_, ?_⟩
  · rw [process_length_of_step eng c data 0 (by decide) hmono, processStream_avail_out]
    simp
  · intro length hret hin
    rw [process_status, process_status, hret]
    simp only [hin]
  · intro h
    rw [process_status, if_pos h]
  · intro h
    have h1 : (engineStep eng c data 0).2 ≠ Z_OK := by
      rw [h]; decide
    rw [process_status, if_neg h1, if_pos h]
  · intro h h0
    have h1 : (engineStep eng c data 0).2 ≠ Z_OK := by
      rw [h]; decide
    have h2 : (engineStep eng c data 0).2 ≠ Z_STREAM_END := by
      rw [h]; decide
    rw [process_status, if_neg h1, if_neg h2, if_pos ⟨h, h0⟩]
  · intro h h0
    have h1 : (engineStep eng c data 0).2 ≠ Z_OK := by
      rw [h]; decide
    have h2 : (engineStep eng c data 0).2 ≠ Z_STREAM_END := by
      rw [h]; decide
    rw [process_status, if_neg h1, if_neg h2, if_neg (fun hh => h0 hh.2)]
  · intro h1 h2 h3
    rw [process_status, if_neg h1, if_neg h2, if_neg (fun hh => h3 hh.1)]

/-- Witness for C8: zero-capacity calls that report END (an engine answering
`Z_STREAM_END`) and ERROR (the small engine with five bytes still pending),
each with 0 bytes written. -/
theorem process_zero_capacity_witness :
    ((process (constEngine Z_STREAM_END) (plainContext false) 100 0).length = 0 ∧
      (process (constEngine Z_STREAM_END) (plainContext false) 100 0).status
        = ZIP_COMPRESSION_END) ∧
    ((process bufferedEngine
        (run bufferedEngine freshCompress [Op.start, Op.input 500 5, Op.end_of_input])
        100 0).length = 0 ∧
      (process bufferedEngine
        (run bufferedEngine freshCompress [Op.start, Op.input 500 5, Op.end_of_input])
        100 0).status = ZIP_COMPRESSION_ERROR) :=
  have h1 := process_zero_capacity (constEngine Z_STREAM_END) (plainContext false) 100
    (by decide)
  have h2 := process_zero_capacity bufferedEngine
    (run bufferedEngine freshCompress [Op.start, Op.input 500 5, Op.end_of_input]) 100
    (by decide)
  ⟨⟨h1.1, h1.2.2.2.1 (by decide)⟩, ⟨h2.1, h2.2.2.2.2.2.1 (by decide) (by decide)⟩⟩

/-! ## NEED_DATA -/

theorem need_data_iff {σ : Type} (eng : Engine σ) (c : ctx σ) (data length : Nat) :
    (process eng c data length).status = ZIP_COMPRESSION_NEED_DATA
      ↔ (engineStep eng c data length).2 = Z_BUF_ERROR
          ∧ (engineStep eng c data length).1.avail_in = 0 := by
  rw [process_status]
  constructor
  · intro h
    split_ifs at h with h1 h2 h3
    exact h3
  · intro h
    have h1 : (engineStep eng c data length).2 ≠ Z_OK := by
      rw [h.1]; decide
    have h2 : (engineStep eng c data length).2 ≠ Z_STREAM_END := by
      rw [h.1]; decide
    rw [if_neg h1, if_neg h2, if_pos h]

/-- C5, as stated, fails: on a decompress context that was started and on which
`end_of_input` was called, with no input supplied, the small engine can make
no progress and `process` returns NEED_DATA although the flag is set. -/
theorem need_data_after_end_of_input :
    (run bufferedEngine freshDecompress [Op.start, Op.end_of_input]).compress = false ∧
    (run bufferedEngine freshDecompress [Op.start, Op.end_of_input]).end_of_input = true ∧
    (process bufferedEngine
        (run bufferedEngine freshDecompress [Op.start, Op.end_of_input]) 100 16).status
      = ZIP_COMPRESSION_NEED_DATA ∧
    ¬ ((process bufferedEngine
          (run bufferedEngine freshDecompress [Op.start, Op.end_of_input]) 100 16).status
        = ZIP_COMPRESSION_NEED_DATA →
       (run bufferedEngine freshDecompress [Op.start, Op.end_of_input]).end_of_input = false) := by
  decide

/-- C5, amended: in both modes, whenever `process` returns NEED_DATA the engine
step reported `Z_BUF_ERROR` and the input chunk is exhausted (`avail_in = 0`
after the step), the diagnostic and the end-of-input flag being left as they
were; in decompress mode the outcome is the same whatever the flag is. -/
theorem need_data_means_starved {σ : Type} (eng : Engine σ) (c : ctx σ) (data length : Nat)
    (h : (process eng c data length).status = ZIP_COMPRESSION_NEED_DATA) :
    (engineStep eng c data length).2 = Z_BUF_ERROR ∧
    (process eng c data length).context.zstr.avail_in = 0 ∧
    (process eng c data length).context.error = c.error ∧
    (process eng c data length).context.end_of_input = c.end_of_input ∧
    (c.compress = false → ∀ b : Bool,
        (process eng { c with end_of_input := b } data length).status
          = ZIP_COMPRESSION_NEED_DATA) := by
  have hs := (need_data_iff eng c data length).1 h
  refine ⟨hs.1, ?_, ?_, ?_, ?_⟩
  · rw [process_zstr]
    exact hs.2
  · rw [process_error, h]
    simp
  · simp only [process]
    split_ifs <;> rfl
  · intro hc b
    have hstep : engineStep eng { c with end_of_input := b } data length
        = engineStep eng c data length := by
      simp [engineStep, processStream, hc]
    rw [need_data_iff, hstep]
    exact hs

/-- Witness for C5, amended: the starved decompress context after
`end_of_input`. -/
theorem need_data_means_starved_witness :
    (engineStep bufferedEngine
        (run bufferedEngine freshDecompress [Op.start, Op.end_of_input]) 100 16).2 = Z_BUF_ERROR ∧
    (process bufferedEngine
        (run bufferedEngine freshDecompress [Op.start, Op.end_of_input])
        100 16).context.zstr.avail_in = 0 :=
  have h := need_data_means_starved bufferedEngine
    (run bufferedEngine freshDecompress [Op.start, Op.end_of_input]) 100 16 (by decide)
  ⟨h.1, h.2.1⟩

/-- C6, as stated, fails: after a 10-byte chunk and a `process` call with
capacity 4, no input is pending and `end_of_input` was not called, yet the
small engine still holds 6 bytes and the next `process` call returns OK with 4
bytes written, not NEED_DATA. -/
theorem ok_without_pending_input :
    (run bufferedEngine freshDecompress
        [Op.start, Op.input 500 10, Op.process 100 4]).zstr.avail_in = 0 ∧
    (run bufferedEngine freshDecompress
        [Op.start, Op.input 500 10, Op.process 100 4]).end_of_input = false ∧
    (process bufferedEngine
        (run bufferedEngine freshDecompress [Op.start, Op.input 500 10, Op.process 100 4])
        104 4).status = ZIP_COMPRESSION_OK ∧
    (process bufferedEngine
        (run bufferedEngine freshDecompress [Op.start, Op.input 500 10, Op.process 100 4])
        104 4).length = 4 ∧
    (process bufferedEngine
        (run bufferedEngine freshDecompress [Op.start, Op.input 500 10, Op.process 100 4])
        104 4).status ≠ ZIP_COMPRESSION_NEED_DATA := by
  decide

/-- C6, amended: on a context with no input pending (`avail_in = 0`), whenever
the engine step reports `Z_BUF_ERROR` and adds no input, `process` returns
NEED_DATA, not OK or END, for every output capacity; when moreover the capacity
is at most `UINT_MAX` and the step leaves the output space untouched, zero
bytes are reported written. -/
theorem starved_step_needs_data {σ : Type} (eng : Engine σ) (c : ctx σ) (data length : Nat)
    (h0 : c.zstr.avail_in = 0)
    (hret : (engineStep eng c data length).2 = Z_BUF_ERROR)
    (hin : (engineStep eng c data length).1.avail_in ≤ (processStream c data length).avail_in) :
    (process eng c data length).status = ZIP_COMPRESSION_NEED_DATA ∧
    (process eng c data length).status ≠ ZIP_COMPRESSION_OK ∧
    (process eng c data length).status ≠ ZIP_COMPRESSION_END ∧
    (length ≤ UINT_MAX →
      (engineStep eng c data length).1.avail_out = (processStream c data length).avail_out →
      (process eng c data length).length = 0) := by
  have hzero : (engineStep eng c data length).1.avail_in = 0 := by
    have hp : (processStream c data length).avail_in = 0 := h0
    omega
  have hs : (process eng c data length).status = ZIP_COMPRESSION_NEED_DATA :=
    (need_data_iff eng c data length).2 ⟨hret, hzero⟩
  refine ⟨hs, ?_, ?_, ?_⟩
  · rw [hs]; decide
  · rw [hs]; decide
  · intro hlen hout
    have hlt : length < U64_MOD := by
      simp only [UINT_MAX] at hlen
      simp only [U64_MOD]
      omega
    rw [process_length_of_step eng c data length hlt (le_of_eq hout), hout,
      Nat.min_eq_left hlen]
    omega

/-- Witness for C6, amended: `process` on a freshly started decompress context,
before any `input`, returns NEED_DATA with zero bytes written. -/
theorem starved_step_needs_data_witness :
    (process bufferedEngine (start bufferedEngine freshDecompress).1 100 16).status
      = ZIP_COMPRESSION_NEED_DATA ∧
    (process bufferedEngine (start bufferedEngine freshDecompress).1 100 16).length = 0 :=
  have h := starved_step_needs_data bufferedEngine (start bufferedEngine freshDecompress).1
    100 16 (by decide) (by decide) (by decide)
  ⟨h.1, h.2.2.2 (by decide) (by decide)⟩

end Deflate
